import Mathlib

/-
Shallow embedding of the content-detection-and-redaction engine of
`app/services/pdf_processor.py` (class `PDFProcessor`) together with the
data model of `app/models.py` that it uses.

Conventions of the embedding:
* Python byte strings are `List Nat` (byte values), Python text strings are
  Lean `String` (worked on through `String.toList`).
* Python floats are modelled as exact rationals `ℚ`; the numeric literals
  of the source (0.85, 0.10, 1.0, ...) are taken at their decimal value.
* Python exceptions are the type `PyExc`: `valueError` is the Python
  `ValueError`, `other` is any other exception class (carrying the class
  name and the message).  Fallible code returns `Except PyExc _`.
* The external PyMuPDF (`fitz`) library is an oracle: what `fitz.open`,
  page text extraction and `doc.write()` do for the given input is
  supplied as explicit data (`OpenOutcome`, `PageOutcome`, `PyDoc`), and
  the theorems quantify over it.  Everything the code of the repository
  does with those outcomes is embedded from the source.
* The regular expressions of `PDFProcessor.__init__` are embedded by a
  small backtracking matcher (`Rgx`, `matchEnds`, `findIter`) whose
  ordered-choice/greedy semantics follows the Python `re` module:
  alternatives are tried left to right, `?` and repetition are greedy,
  `finditer` returns non-overlapping matches scanning left to right.
  Recursion is made total with a fuel argument that is large enough for
  every pattern of the source (each repeated body consumes at least one
  character).
-/

/-- Python `\s` on the ASCII range: the whitespace characters. -/
def pyIsSpace (c : Char) : Bool :=
  c == ' ' || c == '\t' || c == '\n' || c == '\r' || c == '\x0b' || c == '\x0c'

/-- Python `\w` on the ASCII range: letters, digits and underscore. -/
def wordChar (c : Char) : Bool :=
  c.isAlphanum || c == '_'

/-- ASCII lowercasing of one character, as Python `str.lower` does on ASCII text. -/
def asciiLower (c : Char) : Char :=
  if 65 ≤ c.toNat ∧ c.toNat ≤ 90 then Char.ofNat (c.toNat + 32) else c

/-- Python `str.lower` (restricted to the ASCII range, which is all the
source compares). -/
def strLower (s : String) : String :=
  String.mk (s.toList.map asciiLower)

/-- Is `needle` a contiguous substring of `hay`?  Python `needle in hay`. -/
def isSubstr (needle : List Char) : List Char → Bool
  | [] => needle.isEmpty
  | c :: rest => needle.isPrefixOf (c :: rest) || isSubstr needle rest

/-- Python `sub in hay.lower` as used by the error classification of
`process_pdf`. -/
def containsLower (hay : String) (sub : String) : Bool :=
  isSubstr sub.toList (strLower hay).toList

/-- Python `if text.strip()` truthiness — the stripped text is truthy iff the text has a
non-whitespace character. -/
def hasNonWS (s : String) : Bool :=
  s.toList.any fun c => !(pyIsSpace c)

/-- Regular-expression abstract syntax, covering exactly the constructs the
six patterns of `PDFProcessor.__init__` use: character classes, word
boundary `\b`, concatenation, ordered alternation, exact repetition `{n}`
and greedy unbounded repetition (used for `+` and `{n,}`). -/
inductive Rgx : Type
  | eps : Rgx
  | cls (p : Char → Bool) : Rgx
  | wb : Rgx
  | seq (a b : Rgx) : Rgx
  | alt (a b : Rgx) : Rgx
  | repe (r : Rgx) (n : Nat) : Rgx
  | many (r : Rgx) : Rgx

/-- Greedy `r?` — try with `r` first, as Python does. -/
def ropt (r : Rgx) : Rgx := .alt r .eps

/-- Plus: `r+` — one occurrence then greedily many. -/
def onePlus (r : Rgx) : Rgx := .seq r (.many r)

/-- Repetition `r{n,}` — `n` occurrences then greedily many. -/
def atLeast (r : Rgx) (n : Nat) : Rgx := .seq (.repe r n) (.many r)

/-- A literal character. -/
def chR (c : Char) : Rgx := .cls fun d => d == c

/-- A size measure only used to pick a generous fuel for the matcher. -/
def rsize : Rgx → Nat
  | .eps => 1
  | .cls _ => 1
  | .wb => 1
  | .seq a b => rsize a + rsize b + 1
  | .alt a b => rsize a + rsize b + 1
  | .repe r n => (n + 1) * (rsize r + 1)
  | .many r => rsize r + 1

/-- Is position `i` of `s` a `\b` word boundary (Python semantics: the two
sides, with "outside the string" counting as non-word, disagree on
word-ness)? -/
def isWordBoundary (s : List Char) (i : Nat) : Bool :=
  let before := match i with
    | 0 => false
    | j + 1 => match s.get? j with
      | some c => wordChar c
      | none => false
  let after := match s.get? i with
    | some c => wordChar c
    | none => false
  before != after

/-- All end positions at which `r` can match starting at position `i` of `s`,
in the preference order of the Python backtracking engine (greedy first,
alternatives left to right).  The head of the list is the end position
the Python engine reports.  `fuel` bounds the recursion depth. -/
def matchEnds : Nat → Rgx → List Char → Nat → List Nat
  | 0, _, _, _ => []
  | _ + 1, .eps, _, i => [i]
  | _ + 1, .cls p, s, i =>
    match s.get? i with
    | some c => if p c then [i + 1] else []
    | none => []
  | _ + 1, .wb, s, i => if isWordBoundary s i then [i] else []
  | fuel + 1, .seq a b, s, i =>
    (matchEnds fuel a s i).flatMap fun j => matchEnds fuel b s j
  | fuel + 1, .alt a b, s, i =>
    matchEnds fuel a s i ++ matchEnds fuel b s i
  | _ + 1, .repe _ 0, _, i => [i]
  | fuel + 1, .repe r (n + 1), s, i =>
    (matchEnds fuel r s i).flatMap fun j => matchEnds fuel (.repe r n) s j
  | fuel + 1, .many r, s, i =>
    ((matchEnds fuel r s i).flatMap fun j =>
      if i < j then matchEnds fuel (.many r) s j else []) ++ [i]

/-- Fuel that is ample for the patterns of the source: every repeated body
consumes at least one character, so recursion depth stays far below it. -/
def matchFuel (r : Rgx) (s : List Char) : Nat :=
  (s.length + 2) * (rsize r + 2)

/-- The scan loop of `finditer`: at each position try to match; on a match
continue after its end (the patterns of the source never match empty, the
`i + 1` fallback only guards totality). -/
def scanFrom : Nat → Rgx → List Char → Nat → List (Nat × Nat)
  | 0, _, _, _ => []
  | fuel + 1, r, s, i =>
    if i > s.length then []
    else
      match (matchEnds (matchFuel r s) r s i).head? with
      | some j =>
        if i < j then (i, j) :: scanFrom fuel r s j
        else (i, j) :: scanFrom fuel r s (i + 1)
      | none => scanFrom fuel r s (i + 1)

/-- Python `pattern.finditer(text)`: the (start, end) pairs of the non-overlapping
matches, left to right. -/
def findIter (r : Rgx) (s : List Char) : List (Nat × Nat) :=
  scanFrom (s.length + 2) r s 0

/-- The matched substrings of `pattern.finditer(text)` (`match.group()`). -/
def findStrings (r : Rgx) (text : String) : List String :=
  (findIter r text.toList).map fun ij =>
    String.mk ((text.toList.drop ij.1).take (ij.2 - ij.1))

/-- Digits: `\d`. -/
def dCls : Rgx := .cls Char.isDigit

/-- The email pattern `\b[A-Za-z0-9._%+-]+@[A-Za-z0-9.-]+\.[A-Z|a-z]{2,}\b`
note that the class of the source literally contains the bar). -/
def emailRe : Rgx :=
  .seq .wb (.seq (onePlus (.cls fun c =>
      c.isAlphanum || c == '.' || c == '_' || c == '%' || c == '+' || c == '-'))
    (.seq (chR '@') (.seq (onePlus (.cls fun c => c.isAlphanum || c == '.' || c == '-'))
      (.seq (chR '.') (.seq (atLeast (.cls fun c => c.isAlpha || c == '|') 2) .wb)))))

/-- The SSN pattern `\b\d{3}-?\d{2}-?\d{4}\b`. -/
def ssnRe : Rgx :=
  .seq .wb (.seq (.repe dCls 3) (.seq (ropt (chR '-'))
    (.seq (.repe dCls 2) (.seq (ropt (chR '-')) (.seq (.repe dCls 4) .wb)))))

/-- The credit-card pattern `\b(?:\d{4}[-\s]?){3}\d{4}\b`; the separator
class `[-\s]` admits every whitespace character, not only the space). -/
def ccRe : Rgx :=
  .seq .wb (.seq (.repe (.seq (.repe dCls 4) (ropt (.cls fun c => c == '-' || pyIsSpace c))) 3)
    (.seq (.repe dCls 4) .wb))

/-- The separator class of the phone pattern. -/
def phoneSep : Rgx := .cls fun c => c == '-' || c == '.' || pyIsSpace c

/-- The phone pattern with optional country code, parentheses and varied
separators; capture groups do not affect the matched text. -/
def phoneRe : Rgx :=
  .seq .wb (.seq (ropt (.seq (ropt (chR '+')) (.seq (chR '1') (ropt phoneSep))))
    (.seq (ropt (chR '(')) (.seq (.repe dCls 3) (.seq (ropt (chR ')'))
      (.seq (ropt phoneSep) (.seq (.repe dCls 3)
        (.seq (ropt phoneSep) (.seq (.repe dCls 4) .wb))))))))

/-- The date-of-birth pattern: `\b` then month `0[1-9]` or `1[0-2]`, a dash
or slash, day `0[1-9]` or `[12]\d` or `3[01]`, a dash or slash, year `19`
or `20` then `\d{2}`, then `\b`. -/
def dobRe : Rgx :=
  .seq .wb (.seq
    (.alt (.seq (chR '0') (.cls fun c => '1' ≤ c && c ≤ '9'))
          (.seq (chR '1') (.cls fun c => c == '0' || c == '1' || c == '2')))
    (.seq (.cls fun c => c == '-' || c == '/') (.seq
      (.alt (.seq (chR '0') (.cls fun c => '1' ≤ c && c ≤ '9'))
        (.alt (.seq (.cls fun c => c == '1' || c == '2') dCls)
              (.seq (chR '3') (.cls fun c => c == '0' || c == '1'))))
      (.seq (.cls fun c => c == '-' || c == '/') (.seq
        (.alt (.seq (chR '1') (chR '9')) (.seq (chR '2') (chR '0')))
        (.seq (.repe dCls 2) .wb))))))

/-- The account-number pattern `\b\d{8,}\b`. -/
def accountRe : Rgx :=
  .seq .wb (.seq (atLeast dCls 8) .wb)

/-- Enum `RedactionReason` of `app/models.py`. -/
inductive RedactionReason : Type
  | email
  | ssn
  | credit_card
  | phone_number
  | date_of_birth
  | address
  | name
  | account_number
  | custom
deriving DecidableEq, Repr

/-- Field `value` of the str-valued enum. -/
def RedactionReason.value : RedactionReason → String
  | .email => "email"
  | .ssn => "ssn"
  | .credit_card => "credit_card"
  | .phone_number => "phone_number"
  | .date_of_birth => "date_of_birth"
  | .address => "address"
  | .name => "name"
  | .account_number => "account_number"
  | .custom => "custom"

/-- The table `self.patterns` of `PDFProcessor.__init__`, in dict insertion order. -/
def patterns : List (RedactionReason × Rgx) :=
  [(.email, emailRe), (.ssn, ssnRe), (.credit_card, ccRe),
   (.phone_number, phoneRe), (.date_of_birth, dobRe), (.account_number, accountRe)]

/-- A Python exception: `valueError` is `ValueError`, `other` any other
exception class (class name, message).  `str(e)` is the message. -/
inductive PyExc : Type
  | valueError (msg : String)
  | other (excName : String) (msg : String)
deriving DecidableEq, Repr

/-- Python `str(e)` of an exception. -/
def PyExc.msg : PyExc → String
  | .valueError m => m
  | .other _ m => m

/-- Python `int(d)` on a single character, as in `digits_of`: the digit value, or
the Python `ValueError` for a non-digit character. -/
def digitVal (c : Char) : Except PyExc Nat :=
  if c.isDigit then .ok (c.toNat - 48)
  else .error (.valueError ("invalid literal for int with base 10: " ++ String.mk [c]))

/-- The comprehension `[int(d) for d in s]` — left to right, first failure aborts. -/
def digitList : List Char → Except PyExc (List Nat)
  | [] => .ok []
  | c :: rest =>
    match digitVal c with
    | .error e => .error e
    | .ok d =>
      match digitList rest with
      | .error e => .error e
      | .ok ds => .ok (d :: ds)

/-- Helper `digits_of` applied to a number (`[int(d) for d in str(n)]`). -/
def digitsOfNat (n : Nat) : List Nat :=
  (Nat.toDigits 10 n).map fun c => c.toNat - 48

/-- Python slice `l[-1::-2]`: last element, then every second one moving
left — the elements of `l.reverse` at even indices. -/
def everyOther {α : Type} : List α → List α
  | [] => []
  | [a] => [a]
  | a :: _ :: rest => a :: everyOther rest

/-- The inner `luhn_checksum` of `PDFProcessor._is_valid_credit_card`: parse the digits
(`int` may raise on a non-digit character), split them from the right into
the untouched and the doubled positions, and sum. -/
def luhn_checksum (card_num : String) : Except PyExc Nat :=
  match digitList card_num.toList with
  | .error e => .error e
  | .ok digits =>
    let odd_digits := everyOther digits.reverse
    let even_digits := everyOther (digits.reverse.drop 1)
    let checksum := odd_digits.sum + (even_digits.map fun d => (digitsOfNat (d * 2)).sum).sum
    .ok (checksum % 10)

/-- Method `PDFProcessor._is_valid_credit_card`. -/
def is_valid_credit_card (card_number : String) : Except PyExc Bool :=
  match luhn_checksum card_number with
  | .error e => .error e
  | .ok c => .ok (c == 0)

/-- The separator stripping of `_calculate_confidence`: `text.replace` with a
dash then with a space, each against the empty string — replacing a single
character by the empty string removes each of its occurrences. -/
def stripSep (text : String) : String :=
  String.mk ((text.toList.filter fun c => c != '-').filter fun c => c != ' ')

/-- The `base_confidence` table of `PDFProcessor._calculate_confidence`
(every reason is a key, so the lookup default 0.50 is never used). -/
def base_confidence : RedactionReason → ℚ
  | .email => 0.95
  | .ssn => 0.90
  | .credit_card => 0.85
  | .phone_number => 0.80
  | .date_of_birth => 0.75
  | .account_number => 0.70
  | .address => 0.60
  | .name => 0.50
  | .custom => 0.50

/-- Method `PDFProcessor._calculate_confidence`: the base confidence, plus 0.10 for
a credit card that passes the Luhn check after separator stripping, capped
at 1.0.  The Luhn check may raise. -/
def calculate_confidence (reason : RedactionReason) (text : String) : Except PyExc ℚ :=
  let confidence : ℚ := base_confidence reason
  if reason = .credit_card then
    match is_valid_credit_card (stripSep text) with
    | .error e => .error e
    | .ok valid => .ok (min (if valid then confidence + 0.10 else confidence) 1)
  else
    .ok (min confidence 1)

/-- The inner loop of `PDFProcessor.detect_content` for one pattern: each
match's confidence in order, aborting at the first exception. -/
def detectMatches : List String → RedactionReason → Except PyExc (List (String × RedactionReason × ℚ))
  | [], _ => .ok []
  | m :: rest, reason =>
    match calculate_confidence reason m with
    | .error e => .error e
    | .ok c =>
      match detectMatches rest reason with
      | .error e => .error e
      | .ok more => .ok ((m, reason, c) :: more)

/-- The outer loop of `PDFProcessor.detect_content` over the pattern table. -/
def detectLoop : List (RedactionReason × Rgx) → String → Except PyExc (List (String × RedactionReason × ℚ))
  | [], _ => .ok []
  | (reason, re) :: rest, text =>
    match detectMatches (findStrings re text) reason with
    | .error e => .error e
    | .ok items =>
      match detectLoop rest text with
      | .error e => .error e
      | .ok more => .ok (items ++ more)

/-- Method `PDFProcessor.detect_content`. -/
def detect_content (text : String) : Except PyExc (List (String × RedactionReason × ℚ)) :=
  detectLoop patterns text

/-- The four signature bytes of `%PDF`. -/
def pdfMagic : List Nat := [0x25, 0x50, 0x44, 0x46]

/-- The version substrings `_validate_pdf_header` searches for. -/
def pdfVersions : List String :=
  ["1.0", "1.1", "1.2", "1.3", "1.4", "1.5", "1.6", "1.7", "2.0"]

/-- Python ASCII decoding with undecodable bytes ignored: bytes below 128
become their character, the rest are dropped. -/
def decodeAsciiIgnore (bs : List Nat) : String :=
  String.mk ((bs.filter fun b => b < 128).map Char.ofNat)

/-- Method `PDFProcessor._validate_pdf_header`: minimum length, `%PDF` signature,
and a version substring within the first 20 bytes.  (Nothing in the
embedded computation can raise, so the except arm of the source that returns
`False` is unreachable here.) -/
def validate_pdf_header (file_content : List Nat) : Bool :=
  if file_content.length < 4 then false
  else if file_content.take 4 ≠ pdfMagic then false
  else if ¬ (pdfVersions.any fun v =>
      isSubstr v.toList (decodeAsciiIgnore (file_content.take 20)).toList) then false
  else true

/-- One text span of `page.get_text("dict")`: its text and its bounding box
`bbox = (b0, b1, b2, b3)`. -/
structure Span : Type where
  text : String
  b0 : ℚ
  b1 : ℚ
  b2 : ℚ
  b3 : ℚ

/-- One block of the text dict: `none` models a block without a `"lines"`
key (e.g. an image block), `some lines` a block whose lines each hold a
list of spans. -/
structure BlockDict : Type where
  lines : Option (List (List Span))

/-- What the oracle says happens for one page of the loop body
`page = doc[page_num]; page.get_text("dict")`: the extracted text dict, or
the exception either step raises. -/
inductive PageOutcome : Type
  | ok (blocks : List BlockDict)
  | err (e : PyExc)

/-- Model `RedactionBlock` of `app/models.py`. -/
structure RedactionBlock : Type where
  page_number : Nat
  x : ℚ
  y : ℚ
  width : ℚ
  height : ℚ
  reason : RedactionReason
  confidence : ℚ
  original_text : String

/-- An opened `fitz` document, as the oracle describes it: the outcome of
the extraction step of each page and what `doc.write()` returns (bytes or an
exception).  (`_apply_redactions` only mutates the handle and swallows
every per-page exception internally, so it needs no observable model.) -/
structure PyDoc : Type where
  pages : List PageOutcome
  writeResult : Except PyExc (List Nat)

/-- The outcome of `fitz.open(stream=file_content, filetype="pdf")`. -/
inductive OpenOutcome : Type
  | ok (doc : PyDoc)
  | raises (e : PyExc)

/-- The spans of a text dict in scan order: for each block that has a
`"lines"` key, the spans of every line in order. -/
def spansOf (content : List BlockDict) : List Span :=
  content.flatMap fun b =>
    match b.lines with
    | none => []
    | some lines => lines.flatMap id

/-- The body of `_process_page` for one span: skip blank text, otherwise
run the detector and build one `RedactionBlock` per detected item, with
the bbox of the span as geometry and the 1-indexed page number. -/
def spanBlocks (span : Span) (page_num : Nat) : Except PyExc (List RedactionBlock) :=
  if hasNonWS span.text then
    match detect_content span.text with
    | .error e => .error e
    | .ok detected => .ok (detected.map fun item =>
        { page_number := page_num + 1
          x := span.b0
          y := span.b1
          width := span.b2 - span.b0
          height := span.b3 - span.b1
          reason := item.2.1
          confidence := item.2.2
          original_text := item.1 })
  else .ok []

/-- The span loop of `_process_page`: blocks accumulate in span order; the
first exception (the detector can raise) aborts the page. -/
def processPageSpans : List Span → Nat → Except PyExc (List RedactionBlock)
  | [], _ => .ok []
  | s :: rest, page_num =>
    match spanBlocks s page_num with
    | .error e => .error e
    | .ok bs =>
      match processPageSpans rest page_num with
      | .error e => .error e
      | .ok more => .ok (bs ++ more)

/-- Method `PDFProcessor._process_page` on an extracted text dict. -/
def process_page (content : List BlockDict) (page_num : Nat) : Except PyExc (List RedactionBlock) :=
  processPageSpans (spansOf content) page_num

/-- One iteration of the page loop of `process_pdf`: the page access /
extraction outcome, then `_process_page`. -/
def scanPage (p : PageOutcome) (page_num : Nat) : Except PyExc (List RedactionBlock) :=
  match p with
  | .err e => .error e
  | .ok content => process_page content page_num

/-- The page loop of `process_pdf` from page index `i` on: a page whose scan
raises is logged and skipped (`except Exception: continue`), every other
other blocks are appended page by page in order. -/
def scanPagesFrom : Nat → List PageOutcome → List RedactionBlock
  | _, [] => []
  | i, p :: rest =>
    (match scanPage p i with
     | .ok bs => bs
     | .error _ => []) ++ scanPagesFrom (i + 1) rest

/-- The confidence-scores dict of a non-empty summary. -/
structure ConfStats : Type where
  average : ℚ
  minimum : ℚ
  maximum : ℚ
deriving DecidableEq

/-- The summary dict `_create_summary` returns; `confidence_scores = none`
models the empty dict `{}` of the no-blocks case. -/
structure Summary : Type where
  total_redactions : Nat
  redactions_by_reason : List (String × Nat)
  pages_affected : Nat
  confidence_scores : Option ConfStats
deriving DecidableEq

/-- One dict update of the summary loop — get the count with default 0, add
one, store it back — on an insertion-ordered dict modelled as an
association list. -/
def bumpKey (m : List (String × Nat)) (k : String) : List (String × Nat) :=
  if m.any fun p => p.1 == k then
    m.map fun p => if p.1 == k then (p.1, p.2 + 1) else p
  else m ++ [(k, 1)]

/-- Python `min` of a non-empty list (the empty case is unreachable: the
caller guards on `blocks` being non-empty). -/
def listMin : List ℚ → ℚ
  | [] => 0
  | a :: rest => rest.foldl min a

/-- Python `max` of a non-empty list (same guard as `listMin`). -/
def listMax : List ℚ → ℚ
  | [] => 0
  | a :: rest => rest.foldl max a

/-- Method `PDFProcessor._create_summary`: the single loop accumulates the
per-reason counts, the confidence list and the set of affected pages
(a Python `set` is a `Finset`). -/
def create_summary (blocks : List RedactionBlock) : Summary :=
  if blocks.isEmpty then
    { total_redactions := 0
      redactions_by_reason := []
      pages_affected := 0
      confidence_scores := none }
  else
    let acc := blocks.foldl
      (fun (acc : List (String × Nat) × List ℚ × Finset ℕ) block =>
        (bumpKey acc.1 block.reason.value,
         acc.2.1 ++ [block.confidence],
         insert block.page_number acc.2.2))
      ([], [], ∅)
    { total_redactions := blocks.length
      redactions_by_reason := acc.1
      pages_affected := acc.2.2.card
      confidence_scores := some
        { average := acc.2.1.sum / acc.2.1.length
          minimum := listMin acc.2.1
          maximum := listMax acc.2.1 } }

/-- The result dict of a successful `process_pdf` call (the wall-clock
`processing_time_seconds` and `created_at` timestamp are external real
time and are not modelled). -/
structure ProcessResult : Type where
  file_id : String
  total_pages : Nat
  redaction_blocks : List RedactionBlock
  summary : Summary
  redacted_bytes : List Nat

/-- The classification of `fitz.open` failures in `process_pdf`, on
`str(open_error).lower()`. -/
def openClassify (e : PyExc) : PyExc :=
  if containsLower e.msg "password" then
    .valueError "Password-protected PDF files are not supported"
  else if containsLower e.msg "corrupt" || containsLower e.msg "damaged" then
    .valueError "PDF file appears to be corrupted or damaged"
  else
    .valueError ("Unable to open PDF file: " ++ e.msg)

/-- The `except Exception` arm of `process_pdf`: technical messages are
rewritten to user-friendly ones. -/
def rewriteInternal (msg : String) : String :=
  if containsLower msg "memory" then
    "PDF file is too large or complex to process"
  else if containsLower msg "timeout" then
    "PDF processing timed out - file may be too complex"
  else
    "Unable to process PDF file: " ++ msg

/-- The `try` body of `PDFProcessor.process_pdf`: validate the header, open
(classifying open failures), reject empty documents, scan the pages
(page failures are non-fatal), apply the redactions (no observable
effect on the result), serialize, and summarize. -/
def process_pdf_core (file_content : List Nat) (file_id : String)
    (openR : OpenOutcome) : Except PyExc ProcessResult :=
  if validate_pdf_header file_content then
    match openR with
    | .raises e => .error (openClassify e)
    | .ok doc =>
      if doc.pages.length = 0 then
        .error (.valueError "PDF file contains no pages or is empty")
      else
        let total_pages := doc.pages.length
        let redaction_blocks := scanPagesFrom 0 doc.pages
        match doc.writeResult with
        | .error e => .error e
        | .ok redacted_content =>
          .ok { file_id := file_id
                total_pages := total_pages
                redaction_blocks := redaction_blocks
                summary := create_summary redaction_blocks
                redacted_bytes := redacted_content }
  else
    .error (.valueError "Invalid PDF file: Corrupted or unsupported file format")

/-- Method `PDFProcessor.process_pdf` with its two `except` arms: a `ValueError`
is re-raised unchanged, any other exception is rewritten to a
user-friendly `ValueError`. -/
def process_pdf (file_content : List Nat) (file_id : String)
    (openR : OpenOutcome) : Except PyExc ProcessResult :=
  match process_pdf_core file_content file_id openR with
  | .ok r => .ok r
  | .error (.valueError m) => .error (.valueError m)
  | .error (.other _ m) => .error (.valueError (rewriteInternal m))

/-- Written from the words of the spec, to be compared with the source
method `_is_valid_credit_card`: "from the rightmost digit moving left, double
every second digit; when a doubled digit exceeds 9, sum its own two
decimal digits; sum all digits".  The argument lists the digits rightmost
first (the reverse of the written number). -/
def luhnSpecSum : List Nat → Nat
  | [] => 0
  | [d] => d
  | d :: e :: rest =>
    d + (if 9 < 2 * e then 2 * e / 10 + 2 * e % 10 else 2 * e) + luhnSpecSum rest

/-- Written from the words of the spec: the number (digits in written order) is
valid iff the total is divisible by 10. -/
def luhnSpecValid (digits : List Nat) : Bool :=
  luhnSpecSum digits.reverse % 10 == 0

/-- A 16-digit number formatted as four dash-separated groups of four
digits (the shape named by the claim about credit-card confidence). -/
def isFourDashGroups (t : String) : Bool :=
  match t.toList with
  | [a1, a2, a3, a4, '-', b1, b2, b3, b4, '-', c1, c2, c3, c4, '-', d1, d2, d3, d4] =>
    [a1, a2, a3, a4, b1, b2, b3, b4, c1, c2, c3, c4, d1, d2, d3, d4].all Char.isDigit
  | _ => false

/-- The bytes of `%PDF-1.4`, a minimal input passing the header check
(used by concrete witnesses). -/
def sampleHeader : List Nat :=
  [0x25, 0x50, 0x44, 0x46, 0x2D, 0x31, 0x2E, 0x34]

/-- A concrete page holding one email span (used by witnesses). -/
def emailPage : PageOutcome :=
  .ok [{ lines := some [[{ text := "mail a@bb.co", b0 := 0, b1 := 0, b2 := 5, b3 := 1 }]] }]

/-- A concrete page holding one SSN-shaped span (used by witnesses). -/
def ssnPage : PageOutcome :=
  .ok [{ lines := some [[{ text := "ssn 123-45-6789", b0 := 0, b1 := 2, b2 := 5, b3 := 3 }]] }]

/-- The number of blocks carrying a given reason key (the value
`redactions_by_reason` is specified to hold). -/
def reason_count (blocks : List RedactionBlock) (k : String) : Nat :=
  (blocks.filter fun b => b.reason.value == k).length

/-- A concrete email block on page 1 (used by witnesses). -/
def blockEmailP1 : RedactionBlock :=
  { page_number := 1, x := 0, y := 0, width := 1, height := 1,
    reason := .email, confidence := 0.95, original_text := "a@bb.co" }

/-- A concrete SSN block on page 2 (used by witnesses). -/
def blockSsnP2 : RedactionBlock :=
  { page_number := 2, x := 0, y := 0, width := 1, height := 1,
    reason := .ssn, confidence := 0.90, original_text := "123-45-6789" }

/-- A concrete credit-card block on page 2 (used by witnesses). -/
def blockCcP2 : RedactionBlock :=
  { page_number := 2, x := 0, y := 2, width := 1, height := 1,
    reason := .credit_card, confidence := 0.85, original_text := "4111-1111-1111-1111" }

/-! ### Helper lemmas -/

theorem isDigit_toNat_bounds {c : Char} (h : c.isDigit = true) :
    48 ≤ c.toNat ∧ c.toNat ≤ 57 := by
  simp only [Char.isDigit, Bool.and_eq_true, decide_eq_true_eq] at h
  exact ⟨h.1, h.2⟩

theorem isDigit_val_le_9 {c : Char} (h : c.isDigit = true) : c.toNat - 48 ≤ 9 := by
  have := isDigit_toNat_bounds h
  omega

theorem digitList_all_digits : ∀ l : List Char, (∀ c ∈ l, c.isDigit = true) →
    digitList l = .ok (l.map fun c => c.toNat - 48)
  | [], _ => rfl
  | c :: rest, h => by
    have hc : c.isDigit = true := h c (by simp)
    have ih := digitList_all_digits rest fun d hd => h d (by simp [hd])
    simp [digitList, digitVal, hc, ih]

theorem digitsOfNat_double_sum {d : Nat} (hd : d ≤ 9) :
    (digitsOfNat (d * 2)).sum = if 9 < 2 * d then 2 * d / 10 + 2 * d % 10 else 2 * d := by
  interval_cases d <;> decide

theorem luhnSum_eq_spec : ∀ l : List Nat, (∀ d ∈ l, d ≤ 9) →
    (everyOther l).sum
      + ((everyOther (l.drop 1)).map fun d => (digitsOfNat (d * 2)).sum).sum
      = luhnSpecSum l
  | [], _ => by simp [everyOther, luhnSpecSum]
  | [a], _ => by simp [everyOther, luhnSpecSum]
  | a :: b :: rest, h => by
    have hb : b ≤ 9 := h b (by simp)
    have hdig := digitsOfNat_double_sum hb
    have ih := luhnSum_eq_spec rest fun d hd => h d (by simp [hd])
    cases rest with
    | nil => simp [everyOther, luhnSpecSum, hdig]
    | cons c rest' =>
      simp only [everyOther, luhnSpecSum, List.drop_succ_cons, List.drop_zero,
        List.map_cons, List.sum_cons] at ih ⊢
      rw [hdig] at *
      omega

/-! ### C1: the Luhn checksum -/

/-- C1.  The credit-card check of the source — separator stripping followed
by `_is_valid_credit_card` — computes exactly the Luhn algorithm of the spec
(`luhnSpecValid`, written from the words of the spec) on the digit values; and
the two reference vectors hold: `4111111111111111` is valid,
`4111111111111112` is not. -/
theorem C1_luhn_checksum_matches_spec :
    (∀ text : String, (∀ c ∈ (stripSep text).toList, c.isDigit = true) →
      is_valid_credit_card (stripSep text) =
        .ok (luhnSpecValid ((stripSep text).toList.map fun c => c.toNat - 48)))
    ∧ is_valid_credit_card (stripSep "4111111111111111") = .ok true
    ∧ is_valid_credit_card (stripSep "4111111111111112") = .ok false := by
  refine ⟨?_, by rfl, by rfl⟩
  intro text h
  have hd := digitList_all_digits (stripSep text).toList h
  have hbound : ∀ d ∈ ((stripSep text).toList.map fun c => c.toNat - 48).reverse, d ≤ 9 := by
    intro d hdmem
    simp only [List.mem_reverse, List.mem_map] at hdmem
    obtain ⟨c, hc, rfl⟩ := hdmem
    exact isDigit_val_le_9 (h c hc)
  have hsum := luhnSum_eq_spec _ hbound
  simp only [is_valid_credit_card, luhn_checksum, hd, luhnSpecValid, hsum]

/-- Witness for C1 at a dash-separated concrete input. -/
theorem C1_luhn_witness :
    is_valid_credit_card (stripSep "4111-1111-1111-1111") =
      .ok (luhnSpecValid (((stripSep "4111-1111-1111-1111").toList.map fun c => c.toNat - 48))) :=
  C1_luhn_checksum_matches_spec.1 "4111-1111-1111-1111" (by decide)

/-! ### C2: credit-card confidence -/

/-- C2.  The confidence of a detected credit-card string is the base 0.85 plus a
0.10 boost exactly when the string, stripped of dashes and spaces, passes
the Luhn checksum, capped at 1.0; so a four-dash-group number that passes
the checksum gets 0.95 and one that fails it gets 0.85. -/
theorem C2_credit_card_confidence :
    (∀ (text : String) (b : Bool), is_valid_credit_card (stripSep text) = .ok b →
      calculate_confidence .credit_card text =
        .ok (min (if b then (0.85 : ℚ) + 0.10 else 0.85) 1))
    ∧ (∀ text : String, isFourDashGroups text = true →
        is_valid_credit_card (stripSep text) = .ok true →
        calculate_confidence .credit_card text = .ok 0.95)
    ∧ (∀ text : String, isFourDashGroups text = true →
        is_valid_credit_card (stripSep text) = .ok false →
        calculate_confidence .credit_card text = .ok 0.85) := by
  have main : ∀ (text : String) (b : Bool), is_valid_credit_card (stripSep text) = .ok b →
      calculate_confidence .credit_card text =
        .ok (min (if b then (0.85 : ℚ) + 0.10 else 0.85) 1) := by
    intro text b h
    simp [calculate_confidence, base_confidence, h]
  refine ⟨main, ?_, ?_⟩
  · intro text _ h
    rw [main text true h]
    norm_num
  · intro text _ h
    rw [main text false h]
    norm_num

/-- Witness for C2: a Luhn-valid four-dash-group number gets 0.95, the same
number with its last digit altered gets 0.85. -/
theorem C2_confidence_witness :
    calculate_confidence .credit_card "4111-1111-1111-1111" = .ok 0.95
    ∧ calculate_confidence .credit_card "4111-1111-1111-1112" = .ok 0.85 :=
  ⟨C2_credit_card_confidence.2.1 "4111-1111-1111-1111" (by decide) (by rfl),
   C2_credit_card_confidence.2.2 "4111-1111-1111-1112" (by decide) (by rfl)⟩

/-! ### C3: terminal validation errors -/

theorem validate_false_of_short_or_bad_magic {content : List Nat}
    (h : content.length < 4 ∨ content.take 4 ≠ pdfMagic) :
    validate_pdf_header content = false := by
  unfold validate_pdf_header
  split_ifs <;> tauto

/-- C3.  Too-short or unsigned inputs make `process_pdf` raise the
validation `ValueError` whatever the open oracle does (so before any
parse attempt); open failures are classified as password-protected,
corrupted/damaged, or unknown (the latter preserving the underlying
message); and a document that opens with zero pages raises the empty
`ValueError`. -/
theorem C3_terminal_validation_errors :
    (∀ (content : List Nat) (fid : String) (openR : OpenOutcome),
        content.length < 4 ∨ content.take 4 ≠ pdfMagic →
        process_pdf content fid openR =
          .error (.valueError "Invalid PDF file: Corrupted or unsupported file format"))
    ∧ (∀ (content : List Nat) (fid : String) (e : PyExc),
        validate_pdf_header content = true →
        containsLower e.msg "password" = true →
        process_pdf content fid (.raises e) =
          .error (.valueError "Password-protected PDF files are not supported"))
    ∧ (∀ (content : List Nat) (fid : String) (e : PyExc),
        validate_pdf_header content = true →
        containsLower e.msg "password" = false →
        (containsLower e.msg "corrupt" = true ∨ containsLower e.msg "damaged" = true) →
        process_pdf content fid (.raises e) =
          .error (.valueError "PDF file appears to be corrupted or damaged"))
    ∧ (∀ (content : List Nat) (fid : String) (e : PyExc),
        validate_pdf_header content = true →
        containsLower e.msg "password" = false →
        containsLower e.msg "corrupt" = false →
        containsLower e.msg "damaged" = false →
        process_pdf content fid (.raises e) =
          .error (.valueError ("Unable to open PDF file: " ++ e.msg)))
    ∧ (∀ (content : List Nat) (fid : String) (doc : PyDoc),
        validate_pdf_header content = true →
        doc.pages = [] →
        process_pdf content fid (.ok doc) =
          .error (.valueError "PDF file contains no pages or is empty")) := by
  refine ⟨?_, ?_, ?_, ?_, ?_⟩
  · intro content fid openR h
    have hv := validate_false_of_short_or_bad_magic h
    simp [process_pdf, process_pdf_core, hv]
  · intro content fid e hv hp
    simp [process_pdf, process_pdf_core, hv, openClassify, hp]
  · intro content fid e hv hp hc
    rcases hc with hc | hc <;>
      simp [process_pdf, process_pdf_core, hv, openClassify, hp, hc]
  · intro content fid e hv hp hc hdmg
    simp [process_pdf, process_pdf_core, hv, openClassify, hp, hc, hdmg]
  · intro content fid doc hv hpages
    simp [process_pdf, process_pdf_core, hv, hpages]

/-- Witness for C3: each validation path at a concrete input. -/
theorem C3_validation_witness :
    process_pdf [0x25] "f" (.ok { pages := [], writeResult := .ok [] }) =
      .error (.valueError "Invalid PDF file: Corrupted or unsupported file format")
    ∧ process_pdf sampleHeader "f" (.raises (.other "RuntimeError" "Password required")) =
      .error (.valueError "Password-protected PDF files are not supported")
    ∧ process_pdf sampleHeader "f" (.raises (.other "RuntimeError" "file is Corrupt")) =
      .error (.valueError "PDF file appears to be corrupted or damaged")
    ∧ process_pdf sampleHeader "f" (.raises (.other "RuntimeError" "mystery failure")) =
      .error (.valueError "Unable to open PDF file: mystery failure")
    ∧ process_pdf sampleHeader "f" (.ok { pages := [], writeResult := .ok [] }) =
      .error (.valueError "PDF file contains no pages or is empty") :=
  ⟨C3_terminal_validation_errors.1 [0x25] "f" _ (by decide),
   C3_terminal_validation_errors.2.1 sampleHeader "f" _ (by decide) (by decide),
   C3_terminal_validation_errors.2.2.1 sampleHeader "f" _ (by decide) (by decide) (by decide),
   C3_terminal_validation_errors.2.2.2.1 sampleHeader "f" _ (by decide) (by decide) (by decide)
     (by decide),
   C3_terminal_validation_errors.2.2.2.2 sampleHeader "f" _ (by decide) rfl⟩

/-! ### C10: the exact header acceptance condition -/

/-- C10.  The header check accepts exactly the byte strings of length ≥ 4
whose first four bytes are `%PDF` and whose first 20 bytes, decoded as
ASCII ignoring undecodable bytes, contain a version substring; hence the
bare 4-byte `%PDF` is rejected and `process_pdf` raises the validation
error for it. -/
theorem C10_header_acceptance :
    (∀ content : List Nat, validate_pdf_header content = true ↔
        (4 ≤ content.length ∧ content.take 4 = pdfMagic ∧
         ∃ v ∈ pdfVersions,
           isSubstr v.toList (decodeAsciiIgnore (content.take 20)).toList = true))
    ∧ validate_pdf_header pdfMagic = false
    ∧ (∀ (fid : String) (openR : OpenOutcome),
        process_pdf pdfMagic fid openR =
          .error (.valueError "Invalid PDF file: Corrupted or unsupported file format")) := by
  refine ⟨?_, by decide, ?_⟩
  · intro content
    constructor
    · intro ht
      unfold validate_pdf_header at ht
      by_cases h1 : content.length < 4
      · simp [h1] at ht
      by_cases h2 : content.take 4 ≠ pdfMagic
      · simp [h1, h2] at ht
      by_cases h3 : (pdfVersions.any fun v =>
          isSubstr v.toList (decodeAsciiIgnore (content.take 20)).toList) = true
      · rcases List.any_eq_true.mp h3 with ⟨v, hv, hs⟩
        exact ⟨by omega, by tauto, v, hv, hs⟩
      · simp only [h1, h2, if_false] at ht
        simp at ht
        exact ⟨by omega, by tauto, ht⟩
    · rintro ⟨h4, hm, v, hv, hs⟩
      unfold validate_pdf_header
      have h1 : ¬ content.length < 4 := by omega
      have h3 : (pdfVersions.any fun v =>
          isSubstr v.toList (decodeAsciiIgnore (content.take 20)).toList) = true :=
        List.any_eq_true.mpr ⟨v, hv, hs⟩
      simp only [h1, if_false, hm]
      simp [h3]
      exact ⟨v, hv, hs⟩
  · intro fid openR
    have hv : validate_pdf_header pdfMagic = false := by decide
    simp [process_pdf, process_pdf_core, hv]

/-- Witness for C10: a concrete header with a version substring is accepted. -/
theorem C10_header_witness : validate_pdf_header sampleHeader = true :=
  (C10_header_acceptance.1 sampleHeader).mpr
    ⟨by decide, by decide, "1.4", by decide, by decide⟩

/-! ### C4: the error class of internal failures -/

/-- C4 counterexample.  An unexpected internal failure (here: the serialize
step raising a non-`ValueError` exception `boom`) is surfaced by
`process_pdf` as a `ValueError` — the very same exception class the
validation paths use (second conjunct) — so no error class distinct from
the validation one exists. -/
theorem C4_internal_error_class_counterexample :
    process_pdf sampleHeader "f"
        (.ok { pages := [.ok []], writeResult := .error (.other "RuntimeError" "boom") }) =
      .error (.valueError "Unable to process PDF file: boom")
    ∧ process_pdf [0x25] "f" (.ok { pages := [.ok []], writeResult := .ok [] }) =
      .error (.valueError "Invalid PDF file: Corrupted or unsupported file format") :=
  ⟨rfl, rfl⟩

/-- C4 as amended.  An unexpected internal failure (a non-`ValueError`
exception reaching the outer handler, e.g. from the serialize step) is
re-raised as a `ValueError` — the same class as validation errors — with
messages containing "memory" or "timeout" rewritten to the user-friendly
equivalents and any other message preserved inside the generic wrapper. -/
theorem C4_internal_failures_rewritten :
    (∀ (content : List Nat) (fid : String) (doc : PyDoc) (n m : String),
        validate_pdf_header content = true →
        doc.pages ≠ [] →
        doc.writeResult = .error (.other n m) →
        containsLower m "memory" = true →
        process_pdf content fid (.ok doc) =
          .error (.valueError "PDF file is too large or complex to process"))
    ∧ (∀ (content : List Nat) (fid : String) (doc : PyDoc) (n m : String),
        validate_pdf_header content = true →
        doc.pages ≠ [] →
        doc.writeResult = .error (.other n m) →
        containsLower m "memory" = false →
        containsLower m "timeout" = true →
        process_pdf content fid (.ok doc) =
          .error (.valueError "PDF processing timed out - file may be too complex"))
    ∧ (∀ (content : List Nat) (fid : String) (doc : PyDoc) (n m : String),
        validate_pdf_header content = true →
        doc.pages ≠ [] →
        doc.writeResult = .error (.other n m) →
        containsLower m "memory" = false →
        containsLower m "timeout" = false →
        process_pdf content fid (.ok doc) =
          .error (.valueError ("Unable to process PDF file: " ++ m))) := by
  have core : ∀ (content : List Nat) (fid : String) (doc : PyDoc) (n m : String),
      validate_pdf_header content = true →
      doc.pages ≠ [] →
      doc.writeResult = .error (.other n m) →
      process_pdf content fid (.ok doc) =
        .error (.valueError (rewriteInternal m)) := by
    intro content fid doc n m hv hp hw
    have hz : ¬ doc.pages.length = 0 := by
      simpa [List.length_eq_zero] using hp
    simp [process_pdf, process_pdf_core, hv, hz, hw]
  refine ⟨?_, ?_, ?_⟩
  · intro content fid doc n m hv hp hw hmem
    rw [core content fid doc n m hv hp hw]
    simp [rewriteInternal, hmem]
  · intro content fid doc n m hv hp hw hmem htime
    rw [core content fid doc n m hv hp hw]
    simp [rewriteInternal, hmem, htime]
  · intro content fid doc n m hv hp hw hmem htime
    rw [core content fid doc n m hv hp hw]
    simp [rewriteInternal, hmem, htime]

/-- Witness for the amended claim of C4: the three rewriting branches at
concrete serialize failures. -/
theorem C4_rewrite_witness :
    process_pdf sampleHeader "f"
        (.ok { pages := [.ok []],
               writeResult := .error (.other "MemoryError" "out of Memory") }) =
      .error (.valueError "PDF file is too large or complex to process")
    ∧ process_pdf sampleHeader "f"
        (.ok { pages := [.ok []],
               writeResult := .error (.other "RuntimeError" "render Timeout hit") }) =
      .error (.valueError "PDF processing timed out - file may be too complex")
    ∧ process_pdf sampleHeader "f"
        (.ok { pages := [.ok []],
               writeResult := .error (.other "RuntimeError" "mupdf assertion") }) =
      .error (.valueError "Unable to process PDF file: mupdf assertion") :=
  ⟨C4_internal_failures_rewritten.1 sampleHeader "f" _ "MemoryError" "out of Memory"
      (by decide) (by simp) rfl (by decide),
   C4_internal_failures_rewritten.2.1 sampleHeader "f" _ "RuntimeError" "render Timeout hit"
      (by decide) (by simp) rfl (by decide) (by decide),
   C4_internal_failures_rewritten.2.2 sampleHeader "f" _ "RuntimeError" "mupdf assertion"
      (by decide) (by simp) rfl (by decide) (by decide)⟩

/-! ### C5: per-page scan failure is non-fatal -/

theorem scanPagesFrom_split_err : ∀ (pre : List PageOutcome) (i : Nat) (p : PageOutcome)
    (post : List PageOutcome) (e : PyExc), scanPage p (i + pre.length) = .error e →
    scanPagesFrom i (pre ++ p :: post) =
      scanPagesFrom i pre ++ scanPagesFrom (i + pre.length + 1) post
  | [], i, p, post, e, h => by
    simp only [List.length_nil, Nat.add_zero] at h
    simp [scanPagesFrom, h]
  | q :: pre, i, p, post, e, h => by
    have h' : scanPage p (i + 1 + pre.length) = .error e := by
      have harith : i + 1 + pre.length = i + (q :: pre).length := by
        simp
        omega
      rw [harith]
      exact h
    have ih := scanPagesFrom_split_err pre (i + 1) p post e h'
    have harith2 : i + 1 + pre.length + 1 = i + (q :: pre).length + 1 := by
      simp
      omega
    rw [harith2] at ih
    show scanPagesFrom i ((q :: pre) ++ p :: post) = _
    rw [List.cons_append]
    simp only [scanPagesFrom]
    rw [ih, List.append_assoc]

/-- C5.  A page whose scan step raises (page access / text extraction / the
detector) does not abort the call: `process_pdf` still succeeds, the
blocks collected from the pages before it are preserved, and the pages
after it are still scanned with their correct page numbers and their
blocks appear in the result. -/
theorem C5_page_scan_failure_nonfatal :
    ∀ (content : List Nat) (fid : String) (doc : PyDoc) (pre post : List PageOutcome)
      (p : PageOutcome) (e : PyExc) (outBytes : List Nat),
      validate_pdf_header content = true →
      doc.pages = pre ++ p :: post →
      scanPage p pre.length = .error e →
      doc.writeResult = .ok outBytes →
      process_pdf content fid (.ok doc) = .ok
        { file_id := fid
          total_pages := (pre ++ p :: post).length
          redaction_blocks := scanPagesFrom 0 pre ++ scanPagesFrom (pre.length + 1) post
          summary := create_summary (scanPagesFrom 0 pre ++ scanPagesFrom (pre.length + 1) post)
          redacted_bytes := outBytes } := by
  intro content fid doc pre post p e outBytes hv hpages hscan hw
  have hz : ¬ doc.pages.length = 0 := by
    rw [hpages]
    simp
  have hsplit := scanPagesFrom_split_err pre 0 p post e (by simpa using hscan)
  simp only [Nat.zero_add] at hsplit
  simp [process_pdf, process_pdf_core, hv, hz, hw, hpages, hsplit]

/-- Witness for C5: a concrete three-page document where extraction of the
middle page raises; the first page holds an email span, the last an SSN
span, and the blocks of both other pages survive in the result. -/
theorem C5_nonfatal_witness :
    process_pdf sampleHeader "f"
        (.ok { pages := [emailPage, .err (.other "RuntimeError" "cannot extract"), ssnPage],
               writeResult := .ok [9] }) = .ok
      { file_id := "f"
        total_pages := 3
        redaction_blocks := scanPagesFrom 0 [emailPage] ++ scanPagesFrom 2 [ssnPage]
        summary := create_summary (scanPagesFrom 0 [emailPage] ++ scanPagesFrom 2 [ssnPage])
        redacted_bytes := [9] } :=
  C5_page_scan_failure_nonfatal sampleHeader "f" _ [emailPage] [ssnPage]
    (.err (.other "RuntimeError" "cannot extract")) (.other "RuntimeError" "cannot extract") [9]
    (by decide) rfl rfl rfl

/-! ### C6, C7: the summary aggregate -/

theorem create_summary_fold : ∀ (blocks : List RedactionBlock)
    (m : List (String × Nat)) (cs : List ℚ) (ps : Finset ℕ),
    blocks.foldl
      (fun (acc : List (String × Nat) × List ℚ × Finset ℕ) block =>
        (bumpKey acc.1 block.reason.value,
         acc.2.1 ++ [block.confidence],
         insert block.page_number acc.2.2)) (m, cs, ps) =
      (blocks.foldl (fun m b => bumpKey m b.reason.value) m,
       cs ++ blocks.map RedactionBlock.confidence,
       blocks.foldl (fun s b => insert b.page_number s) ps)
  | [], m, cs, ps => by simp
  | b :: rest, m, cs, ps => by
    have ih := create_summary_fold rest (bumpKey m b.reason.value)
      (cs ++ [b.confidence]) (insert b.page_number ps)
    simp only [List.foldl_cons, ih, List.map_cons, List.append_assoc, List.singleton_append]

theorem lookup_cons (k a1 : String) (a2 : Nat) (m : List (String × Nat)) :
    List.lookup k ((a1, a2) :: m) = cond (k == a1) (some a2) (List.lookup k m) := by
  cases h : (k == a1) <;> simp [List.lookup, h]

theorem lookup_map_bump_self (k : String) : ∀ m : List (String × Nat),
    List.lookup k (m.map fun p => if p.1 == k then (p.1, p.2 + 1) else p) =
      (List.lookup k m).map (· + 1)
  | [] => rfl
  | (a1, a2) :: m => by
    by_cases h : a1 = k
    · have hb : (a1 == k) = true := beq_iff_eq.mpr h
      have hk : (k == a1) = true := beq_iff_eq.mpr h.symm
      simp only [List.map_cons, hb, if_true]
      rw [lookup_cons, lookup_cons, hk]
      rfl
    · have hb : (a1 == k) = false := beq_eq_false_iff_ne.mpr h
      have hk : (k == a1) = false := beq_eq_false_iff_ne.mpr (Ne.symm h)
      simp only [List.map_cons, hb]
      rw [if_neg Bool.false_ne_true, lookup_cons, lookup_cons, hk]
      simp only [Bool.cond_false]
      exact lookup_map_bump_self k m

theorem lookup_map_bump_other {k k' : String} (hne : k' ≠ k) : ∀ m : List (String × Nat),
    List.lookup k' (m.map fun p => if p.1 == k then (p.1, p.2 + 1) else p) =
      List.lookup k' m
  | [] => rfl
  | (a1, a2) :: m => by
    by_cases h : a1 = k
    · have hb : (a1 == k) = true := beq_iff_eq.mpr h
      have hk : (k' == a1) = false := beq_eq_false_iff_ne.mpr fun he => hne (he.trans h)
      simp only [List.map_cons, hb, if_true]
      rw [lookup_cons, lookup_cons, hk]
      simp only [Bool.cond_false]
      exact lookup_map_bump_other hne m
    · have hb : (a1 == k) = false := beq_eq_false_iff_ne.mpr h
      by_cases hk : k' = a1
      · have hk' : (k' == a1) = true := beq_iff_eq.mpr hk
        simp only [List.map_cons, hb]
        rw [if_neg Bool.false_ne_true, lookup_cons, lookup_cons, hk']
        simp only [Bool.cond_true]
      · have hk' : (k' == a1) = false := beq_eq_false_iff_ne.mpr hk
        simp only [List.map_cons, hb]
        rw [if_neg Bool.false_ne_true, lookup_cons, lookup_cons, hk']
        simp only [Bool.cond_false]
        exact lookup_map_bump_other hne m

theorem lookup_append_single_ne {k k' : String} (hne : k' ≠ k) : ∀ m : List (String × Nat),
    List.lookup k' (m ++ [(k, 1)]) = List.lookup k' m
  | [] => by simp [List.lookup, beq_eq_false_iff_ne.mpr hne]
  | (a1, a2) :: m => by
    by_cases hk : k' = a1
    · have hk' : (k' == a1) = true := beq_iff_eq.mpr hk
      simp [List.lookup, hk']
    · have hk' : (k' == a1) = false := beq_eq_false_iff_ne.mpr hk
      simp [List.lookup, hk', lookup_append_single_ne hne m]

theorem lookup_append_single_self (k : String) : ∀ m : List (String × Nat),
    List.lookup k m = none → List.lookup k (m ++ [(k, 1)]) = some 1
  | [], _ => by simp [List.lookup]
  | (a1, a2) :: m, h => by
    by_cases hk : k = a1
    · have hk' : (k == a1) = true := beq_iff_eq.mpr hk
      simp [List.lookup, hk'] at h
    · have hk' : (k == a1) = false := beq_eq_false_iff_ne.mpr hk
      have h' : List.lookup k m = none := by
        simpa [List.lookup, hk'] using h
      simp [List.lookup, hk', lookup_append_single_self k m h']

theorem any_false_lookup_none (k : String) : ∀ m : List (String × Nat),
    (m.any fun p => p.1 == k) = false → List.lookup k m = none
  | [], _ => rfl
  | (a1, a2) :: m, h => by
    simp only [List.any_cons, Bool.or_eq_false_iff] at h
    have hk : (k == a1) = false :=
      beq_eq_false_iff_ne.mpr (Ne.symm (beq_eq_false_iff_ne.mp h.1))
    simp [List.lookup, hk, any_false_lookup_none k m h.2]

theorem any_true_lookup_some (k : String) : ∀ m : List (String × Nat),
    (m.any fun p => p.1 == k) = true → ∃ v, List.lookup k m = some v
  | (a1, a2) :: m, h => by
    by_cases hk : a1 = k
    · have hk' : (k == a1) = true := beq_iff_eq.mpr hk.symm
      exact ⟨a2, by simp [List.lookup, hk']⟩
    · have hb : (a1 == k) = false := beq_eq_false_iff_ne.mpr hk
      have hk' : (k == a1) = false := beq_eq_false_iff_ne.mpr (Ne.symm hk)
      have h' : (m.any fun p => p.1 == k) = true := by
        rw [List.any_cons, hb, Bool.false_or] at h
        exact h
      rcases any_true_lookup_some k m h' with ⟨v, hv⟩
      exact ⟨v, by simp [List.lookup, hk', hv]⟩

theorem lookup_bumpKey_self (m : List (String × Nat)) (k : String) :
    List.lookup k (bumpKey m k) = some ((List.lookup k m).getD 0 + 1) := by
  unfold bumpKey
  by_cases hany : (m.any fun p => p.1 == k) = true
  · rcases any_true_lookup_some k m hany with ⟨v, hv⟩
    rw [if_pos hany, lookup_map_bump_self k m, hv]
    rfl
  · have hf : (m.any fun p => p.1 == k) = false := by
      revert hany
      cases (m.any fun p => p.1 == k) <;> simp
    have hnone := any_false_lookup_none k m hf
    rw [if_neg hany, lookup_append_single_self k m hnone, hnone]
    rfl

theorem lookup_bumpKey_other {k k' : String} (hne : k' ≠ k) (m : List (String × Nat)) :
    List.lookup k' (bumpKey m k) = List.lookup k' m := by
  unfold bumpKey
  by_cases hany : (m.any fun p => p.1 == k) = true
  · rw [if_pos hany]
    exact lookup_map_bump_other hne m
  · rw [if_neg hany]
    exact lookup_append_single_ne hne m

theorem lookup_fold_bump (k : String) : ∀ (blocks : List RedactionBlock)
    (m : List (String × Nat)),
    List.lookup k (blocks.foldl (fun acc b => bumpKey acc b.reason.value) m) =
      match List.lookup k m with
      | some v => some (v + reason_count blocks k)
      | none =>
        if 0 < reason_count blocks k then some (reason_count blocks k) else none
  | [], m => by
    cases h : List.lookup k m <;> simp [reason_count, h]
  | b :: rest, m => by
    have ih := lookup_fold_bump k rest (bumpKey m b.reason.value)
    simp only [List.foldl_cons]
    rw [ih]
    by_cases hbk : b.reason.value = k
    · rw [hbk, lookup_bumpKey_self]
      have hcnt : reason_count (b :: rest) k = reason_count rest k + 1 := by
        simp [reason_count, List.filter_cons, hbk]
      cases h : List.lookup k m <;> simp [h, hcnt] <;> try omega
    · rw [lookup_bumpKey_other (fun he => hbk he.symm)]
      have hcnt : reason_count (b :: rest) k = reason_count rest k := by
        simp [reason_count, List.filter_cons, beq_eq_false_iff_ne.mpr hbk]
      rw [hcnt]

theorem fold_insert_pages : ∀ (blocks : List RedactionBlock) (s : Finset ℕ),
    blocks.foldl (fun s b => insert b.page_number s) s =
      s ∪ (blocks.map RedactionBlock.page_number).toFinset
  | [], s => by simp
  | b :: rest, s => by
    rw [List.foldl_cons, fold_insert_pages rest (insert b.page_number s)]
    ext x
    simp
    try tauto

theorem create_summary_cons (b : RedactionBlock) (rest : List RedactionBlock) :
    create_summary (b :: rest) =
      { total_redactions := (b :: rest).length
        redactions_by_reason := (b :: rest).foldl (fun m bb => bumpKey m bb.reason.value) []
        pages_affected :=
          ((b :: rest).foldl (fun s bb => insert bb.page_number s) (∅ : Finset ℕ)).card
        confidence_scores := some
          { average := ((b :: rest).map RedactionBlock.confidence).sum /
              (((b :: rest).map RedactionBlock.confidence).length : ℚ)
            minimum := listMin ((b :: rest).map RedactionBlock.confidence)
            maximum := listMax ((b :: rest).map RedactionBlock.confidence) } } := by
  unfold create_summary
  rw [List.isEmpty_cons, if_neg Bool.false_ne_true, create_summary_fold (b :: rest) [] [] ∅]
  simp only [List.nil_append]

theorem create_summary_byReason (blocks : List RedactionBlock) :
    (create_summary blocks).redactions_by_reason =
      blocks.foldl (fun m b => bumpKey m b.reason.value) [] := by
  cases blocks with
  | nil => rfl
  | cons b rest => rw [create_summary_cons]

theorem create_summary_pages (blocks : List RedactionBlock) :
    (create_summary blocks).pages_affected =
      ((blocks.map RedactionBlock.page_number).toFinset).card := by
  cases blocks with
  | nil => rfl
  | cons b rest =>
    rw [create_summary_cons]
    show ((b :: rest).foldl (fun s bb => insert bb.page_number s) (∅ : Finset ℕ)).card = _
    rw [fold_insert_pages (b :: rest) ∅, Finset.empty_union]

/-- C6.  The summary: the total is the number of blocks, the per-reason
dict maps exactly the categories that occur to their block counts (and
holds no other key: looking up any other key gives nothing), the affected
page count is the number of distinct page numbers, and the empty block
list produces the all-empty summary. -/
theorem C6_summary_counts :
    (create_summary [] = { total_redactions := 0, redactions_by_reason := [],
                           pages_affected := 0, confidence_scores := none })
    ∧ (∀ blocks : List RedactionBlock,
        (create_summary blocks).total_redactions = blocks.length)
    ∧ (∀ (blocks : List RedactionBlock) (k : String),
        List.lookup k (create_summary blocks).redactions_by_reason =
          if 0 < reason_count blocks k then some (reason_count blocks k) else none)
    ∧ (∀ blocks : List RedactionBlock,
        (create_summary blocks).pages_affected =
          ((blocks.map RedactionBlock.page_number).toFinset).card) := by
  refine ⟨rfl, ?_, ?_, create_summary_pages⟩
  · intro blocks
    cases blocks with
    | nil => rfl
    | cons b rest => simp [create_summary]
  · intro blocks k
    rw [create_summary_byReason, lookup_fold_bump]
    simp [List.lookup]

/-- Witness for C6 at the concrete two-block document of the example
in the spec: one email block on page 1, one SSN block on page 2. -/
theorem C6_summary_witness :
    (create_summary [blockEmailP1, blockSsnP2]).total_redactions = 2
    ∧ List.lookup "email" (create_summary [blockEmailP1, blockSsnP2]).redactions_by_reason =
        some 1
    ∧ List.lookup "ssn" (create_summary [blockEmailP1, blockSsnP2]).redactions_by_reason =
        some 1
    ∧ List.lookup "credit_card"
        (create_summary [blockEmailP1, blockSsnP2]).redactions_by_reason = none
    ∧ (create_summary [blockEmailP1, blockSsnP2]).pages_affected = 2 := by
  refine ⟨C6_summary_counts.2.1 [blockEmailP1, blockSsnP2], ?_, ?_, ?_, ?_⟩
  · rw [C6_summary_counts.2.2.1 [blockEmailP1, blockSsnP2] "email"]
    decide
  · rw [C6_summary_counts.2.2.1 [blockEmailP1, blockSsnP2] "ssn"]
    decide
  · rw [C6_summary_counts.2.2.1 [blockEmailP1, blockSsnP2] "credit_card"]
    decide
  · rw [C6_summary_counts.2.2.2 [blockEmailP1, blockSsnP2]]
    decide

theorem foldl_min_spec : ∀ (t : List ℚ) (a : ℚ),
    (t.foldl min a = a ∨ t.foldl min a ∈ t)
    ∧ t.foldl min a ≤ a ∧ ∀ x ∈ t, t.foldl min a ≤ x
  | [], a => ⟨.inl rfl, le_refl a, by simp⟩
  | b :: t, a => by
    have ih := foldl_min_spec t (min a b)
    refine ⟨?_, ?_, ?_⟩
    · rcases ih.1 with h | h
      · rcases min_choice a b with hm | hm
        · exact .inl (by rw [List.foldl_cons, h, hm])
        · exact .inr (by rw [List.foldl_cons, h, hm]; exact List.mem_cons_self b t)
      · exact .inr (List.mem_cons_of_mem b h)
    · exact le_trans ih.2.1 (min_le_left a b)
    · intro x hx
      rcases List.mem_cons.mp hx with rfl | hx
      · exact le_trans ih.2.1 (min_le_right a x)
      · exact ih.2.2 x hx

theorem foldl_max_spec : ∀ (t : List ℚ) (a : ℚ),
    (t.foldl max a = a ∨ t.foldl max a ∈ t)
    ∧ a ≤ t.foldl max a ∧ ∀ x ∈ t, x ≤ t.foldl max a
  | [], a => ⟨.inl rfl, le_refl a, by simp⟩
  | b :: t, a => by
    have ih := foldl_max_spec t (max a b)
    refine ⟨?_, ?_, ?_⟩
    · rcases ih.1 with h | h
      · rcases max_choice a b with hm | hm
        · exact .inl (by rw [List.foldl_cons, h, hm])
        · exact .inr (by rw [List.foldl_cons, h, hm]; exact List.mem_cons_self b t)
      · exact .inr (List.mem_cons_of_mem b h)
    · exact le_trans (le_max_left a b) ih.2.1
    · intro x hx
      rcases List.mem_cons.mp hx with rfl | hx
      · exact le_trans (le_max_right a x) ih.2.1
      · exact ih.2.2 x hx

theorem listMin_spec {l : List ℚ} (h : l ≠ []) :
    listMin l ∈ l ∧ ∀ x ∈ l, listMin l ≤ x := by
  cases l with
  | nil => exact absurd rfl h
  | cons a t =>
    have hs := foldl_min_spec t a
    refine ⟨?_, ?_⟩
    · rcases hs.1 with he | he
      · rw [listMin, he]; exact List.mem_cons_self a t
      · exact List.mem_cons_of_mem a (by rw [listMin]; exact he)
    · intro x hx
      rcases List.mem_cons.mp hx with rfl | hx
      · exact hs.2.1
      · exact hs.2.2 x hx

theorem listMax_spec {l : List ℚ} (h : l ≠ []) :
    listMax l ∈ l ∧ ∀ x ∈ l, x ≤ listMax l := by
  cases l with
  | nil => exact absurd rfl h
  | cons a t =>
    have hs := foldl_max_spec t a
    refine ⟨?_, ?_⟩
    · rcases hs.1 with he | he
      · rw [listMax, he]; exact List.mem_cons_self a t
      · exact List.mem_cons_of_mem a (by rw [listMax]; exact he)
    · intro x hx
      rcases List.mem_cons.mp hx with rfl | hx
      · exact hs.2.1
      · exact hs.2.2 x hx

theorem confidence_scores_formula (blocks : List RedactionBlock) (h : blocks ≠ []) :
    (create_summary blocks).confidence_scores = some
      { average := (blocks.map RedactionBlock.confidence).sum /
          ((blocks.map RedactionBlock.confidence).length : ℚ)
        minimum := listMin (blocks.map RedactionBlock.confidence)
        maximum := listMax (blocks.map RedactionBlock.confidence) } := by
  cases blocks with
  | nil => exact absurd rfl h
  | cons b rest => rw [create_summary_cons]

/-- C7.  The confidence statistics: on any block list whose confidences are
exactly [0.95, 0.90, 0.85] the summary reports average 0.9, minimum 0.85
and maximum 0.95; and in general the reported average is the arithmetic
mean of the block confidences and the reported minimum/maximum are a
least/greatest element of them. -/
theorem C7_confidence_statistics :
    (∀ blocks : List RedactionBlock,
        blocks.map RedactionBlock.confidence = [0.95, 0.90, 0.85] →
        (create_summary blocks).confidence_scores =
          some { average := 0.9, minimum := 0.85, maximum := 0.95 })
    ∧ (∀ (blocks : List RedactionBlock) (st : ConfStats),
        (create_summary blocks).confidence_scores = some st →
        st.average = (blocks.map RedactionBlock.confidence).sum /
            ((blocks.map RedactionBlock.confidence).length : ℚ)
        ∧ st.minimum ∈ blocks.map RedactionBlock.confidence
        ∧ (∀ x ∈ blocks.map RedactionBlock.confidence, st.minimum ≤ x)
        ∧ st.maximum ∈ blocks.map RedactionBlock.confidence
        ∧ (∀ x ∈ blocks.map RedactionBlock.confidence, x ≤ st.maximum)) := by
  constructor
  · intro blocks hmap
    have hne : blocks ≠ [] := by
      intro hb
      rw [hb] at hmap
      simp at hmap
    rw [confidence_scores_formula blocks hne, hmap]
    simp only [Option.some.injEq, ConfStats.mk.injEq]
    refine ⟨by norm_num, ?_, ?_⟩
    · simp [listMin]
      norm_num [min_def]
    · simp [listMax]
      norm_num [max_def]
  · intro blocks st h
    have hne : blocks ≠ [] := by
      intro hb
      rw [hb] at h
      simp [create_summary] at h
    rw [confidence_scores_formula blocks hne] at h
    have hmapne : blocks.map RedactionBlock.confidence ≠ [] := by
      simpa using hne
    have hmin := listMin_spec hmapne
    have hmax := listMax_spec hmapne
    cases h' : st
    rw [h'] at h
    simp only [Option.some.injEq, ConfStats.mk.injEq] at h
    obtain ⟨ha, hmi, hma⟩ := h
    exact ⟨ha.symm, hmi.symm ▸ hmin.1, fun x hx => hmi.symm ▸ hmin.2 x hx,
      hma.symm ▸ hmax.1, fun x hx => hma.symm ▸ hmax.2 x hx⟩

/-- Witness for C7: three concrete blocks with confidences 0.95, 0.90, 0.85. -/
theorem C7_statistics_witness :
    (create_summary [blockEmailP1, blockSsnP2, blockCcP2]).confidence_scores =
      some { average := 0.9, minimum := 0.85, maximum := 0.95 } :=
  C7_confidence_statistics.1 [blockEmailP1, blockSsnP2, blockCcP2] rfl

/-! ### C8: invariants of the returned blocks -/

theorem calculate_confidence_bounds {r : RedactionReason} {t : String} {c : ℚ}
    (h : calculate_confidence r t = .ok c) : 0 ≤ c ∧ c ≤ 1 := by
  unfold calculate_confidence at h
  by_cases hr : r = .credit_card
  · rw [if_pos hr] at h
    cases hv : is_valid_credit_card (stripSep t) with
    | error e => rw [hv] at h; exact (Except.noConfusion h)
    | ok valid =>
      rw [hv] at h
      simp only [Except.ok.injEq] at h
      subst h
      refine ⟨le_min ?_ (by norm_num), min_le_right _ _⟩
      subst hr
      cases valid <;> norm_num [base_confidence]
  · rw [if_neg hr] at h
    simp only [Except.ok.injEq] at h
    subst h
    refine ⟨le_min ?_ (by norm_num), min_le_right _ _⟩
    cases r <;> norm_num [base_confidence]

theorem detectMatches_bounds : ∀ (ms : List String) (r : RedactionReason)
    (l : List (String × RedactionReason × ℚ)), detectMatches ms r = .ok l →
    ∀ item ∈ l, 0 ≤ item.2.2 ∧ item.2.2 ≤ 1
  | [], _, l, h => by
    simp only [detectMatches, Except.ok.injEq] at h
    subst h
    simp
  | m :: rest, r, l, h => by
    unfold detectMatches at h
    cases hc : calculate_confidence r m with
    | error e => rw [hc] at h; exact (Except.noConfusion h)
    | ok c =>
      rw [hc] at h
      cases hrest : detectMatches rest r with
      | error e => rw [hrest] at h; exact (Except.noConfusion h)
      | ok more =>
        rw [hrest] at h
        simp only [Except.ok.injEq] at h
        subst h
        intro item hitem
        rcases List.mem_cons.mp hitem with rfl | hmem
        · exact calculate_confidence_bounds hc
        · exact detectMatches_bounds rest r more hrest item hmem

theorem detectLoop_bounds : ∀ (ps : List (RedactionReason × Rgx)) (text : String)
    (l : List (String × RedactionReason × ℚ)), detectLoop ps text = .ok l →
    ∀ item ∈ l, 0 ≤ item.2.2 ∧ item.2.2 ≤ 1
  | [], _, l, h => by
    simp only [detectLoop, Except.ok.injEq] at h
    subst h
    simp
  | (r, re) :: rest, text, l, h => by
    unfold detectLoop at h
    cases hm : detectMatches (findStrings re text) r with
    | error e => rw [hm] at h; exact (Except.noConfusion h)
    | ok items =>
      rw [hm] at h
      cases hrest : detectLoop rest text with
      | error e => rw [hrest] at h; exact (Except.noConfusion h)
      | ok more =>
        rw [hrest] at h
        simp only [Except.ok.injEq] at h
        subst h
        intro item hitem
        rcases List.mem_append.mp hitem with hmem | hmem
        · exact detectMatches_bounds _ r items hm item hmem
        · exact detectLoop_bounds rest text more hrest item hmem

theorem spanBlocks_mem {span : Span} {pn : Nat} {bs : List RedactionBlock}
    (h : spanBlocks span pn = .ok bs) :
    ∀ b ∈ bs, b.page_number = pn + 1 ∧ 0 ≤ b.confidence ∧ b.confidence ≤ 1 := by
  unfold spanBlocks at h
  by_cases hw : hasNonWS span.text = true
  · rw [if_pos hw] at h
    cases hd : detect_content span.text with
    | error e => rw [hd] at h; exact (Except.noConfusion h)
    | ok detected =>
      rw [hd] at h
      simp only [Except.ok.injEq] at h
      subst h
      intro b hb
      rcases List.mem_map.mp hb with ⟨item, hitem, rfl⟩
      exact ⟨rfl, detectLoop_bounds patterns span.text detected hd item hitem⟩
  · rw [if_neg hw] at h
    simp only [Except.ok.injEq] at h
    subst h
    simp

theorem processPageSpans_mem : ∀ (spans : List Span) (pn : Nat) (bs : List RedactionBlock),
    processPageSpans spans pn = .ok bs →
    ∀ b ∈ bs, b.page_number = pn + 1 ∧ 0 ≤ b.confidence ∧ b.confidence ≤ 1
  | [], _, bs, h => by
    simp only [processPageSpans, Except.ok.injEq] at h
    subst h
    simp
  | s :: rest, pn, bs, h => by
    unfold processPageSpans at h
    cases hs : spanBlocks s pn with
    | error e => rw [hs] at h; exact (Except.noConfusion h)
    | ok bs1 =>
      rw [hs] at h
      cases hrest : processPageSpans rest pn with
      | error e => rw [hrest] at h; exact (Except.noConfusion h)
      | ok more =>
        rw [hrest] at h
        simp only [Except.ok.injEq] at h
        subst h
        intro b hb
        rcases List.mem_append.mp hb with hmem | hmem
        · exact spanBlocks_mem hs b hmem
        · exact processPageSpans_mem rest pn more hrest b hmem

theorem scanPage_mem {p : PageOutcome} {i : Nat} {bs : List RedactionBlock}
    (h : scanPage p i = .ok bs) :
    ∀ b ∈ bs, b.page_number = i + 1 ∧ 0 ≤ b.confidence ∧ b.confidence ≤ 1 := by
  cases p with
  | err e => exact (Except.noConfusion h)
  | ok content => exact processPageSpans_mem (spansOf content) i bs h

theorem scanPagesFrom_bounds : ∀ (ps : List PageOutcome) (i : Nat),
    ∀ b ∈ scanPagesFrom i ps,
      i + 1 ≤ b.page_number ∧ b.page_number ≤ i + ps.length
      ∧ 0 ≤ b.confidence ∧ b.confidence ≤ 1
  | [], i, b, hb => absurd hb (by simp [scanPagesFrom])
  | p :: rest, i, b, hb => by
    simp only [scanPagesFrom] at hb
    rcases List.mem_append.mp hb with hmem | hmem
    · cases hsp : scanPage p i with
      | error e => rw [hsp] at hmem; exact absurd hmem (List.not_mem_nil b)
      | ok bs =>
        rw [hsp] at hmem
        have := scanPage_mem hsp b hmem
        refine ⟨by omega, by simp; omega, this.2⟩
    · have := scanPagesFrom_bounds rest (i + 1) b hmem
      refine ⟨by omega, by simp; omega, this.2.2⟩

theorem scanPagesFrom_sorted : ∀ (ps : List PageOutcome) (i : Nat),
    (scanPagesFrom i ps).Pairwise fun a c => a.page_number ≤ c.page_number
  | [], _ => by simp [scanPagesFrom]
  | p :: rest, i => by
    simp only [scanPagesFrom]
    apply List.pairwise_append.mpr
    refine ⟨?_, scanPagesFrom_sorted rest (i + 1), ?_⟩
    · cases hsp : scanPage p i with
      | error e => simp
      | ok bs =>
        apply List.pairwise_of_forall_mem_list
        intro a ha c hc
        rw [(scanPage_mem hsp a ha).1, (scanPage_mem hsp c hc).1]
    · intro a ha c hc
      have hc' := scanPagesFrom_bounds rest (i + 1) c hc
      cases hsp : scanPage p i with
      | error e => rw [hsp] at ha; exact absurd ha (List.not_mem_nil a)
      | ok bs =>
        rw [hsp] at ha
        rw [(scanPage_mem hsp a ha).1]
        omega

theorem process_ok_structure {content : List Nat} {fid : String} {openR : OpenOutcome}
    {res : ProcessResult} (h : process_pdf content fid openR = .ok res) :
    ∃ doc : PyDoc, openR = .ok doc ∧ res.total_pages = doc.pages.length ∧
      res.redaction_blocks = scanPagesFrom 0 doc.pages := by
  unfold process_pdf at h
  cases hcore : process_pdf_core content fid openR with
  | error e => rw [hcore] at h; cases e <;> exact (Except.noConfusion h)
  | ok r =>
    rw [hcore] at h
    simp only [Except.ok.injEq] at h
    subst h
    cases openR with
    | raises e =>
      by_cases hv : validate_pdf_header content = true
      · simp only [process_pdf_core, hv, if_true] at hcore
        exact (Except.noConfusion hcore)
      · simp only [process_pdf_core, hv, if_false] at hcore
        exact (Except.noConfusion hcore)
    | ok doc =>
      by_cases hv : validate_pdf_header content = true
      · simp only [process_pdf_core, hv, if_true] at hcore
        by_cases hz : doc.pages.length = 0
        · rw [if_pos hz] at hcore
          exact (Except.noConfusion hcore)
        · rw [if_neg hz] at hcore
          cases hw : doc.writeResult with
          | error e => rw [hw] at hcore; exact (Except.noConfusion hcore)
          | ok outBytes =>
            rw [hw] at hcore
            simp only [Except.ok.injEq] at hcore
            exact ⟨doc, rfl, by rw [← hcore], by rw [← hcore]⟩
      · simp only [process_pdf_core, hv, if_false] at hcore
        exact (Except.noConfusion hcore)

/-- C8.  Every block of a successful `process_pdf` result has a positive
1-indexed page number that is at most `total_pages` and a confidence in
[0, 1]; and the block list is ordered with lower-numbered pages first
(pages are scanned in ascending order, blocks within a page in
fragment-scan order by construction). -/
theorem C8_result_block_invariants :
    (∀ (content : List Nat) (fid : String) (openR : OpenOutcome) (res : ProcessResult),
        process_pdf content fid openR = .ok res →
        ∀ b ∈ res.redaction_blocks,
          1 ≤ b.page_number ∧ b.page_number ≤ res.total_pages
          ∧ 0 ≤ b.confidence ∧ b.confidence ≤ 1)
    ∧ (∀ (content : List Nat) (fid : String) (openR : OpenOutcome) (res : ProcessResult),
        process_pdf content fid openR = .ok res →
        res.redaction_blocks.Pairwise fun a c => a.page_number ≤ c.page_number) := by
  constructor
  · intro content fid openR res h b hb
    rcases process_ok_structure h with ⟨doc, -, hpages, hblocks⟩
    rw [hblocks] at hb
    have := scanPagesFrom_bounds doc.pages 0 b hb
    rw [hpages]
    refine ⟨by omega, by omega, this.2.2⟩
  · intro content fid openR res h
    rcases process_ok_structure h with ⟨doc, -, -, hblocks⟩
    rw [hblocks]
    exact scanPagesFrom_sorted doc.pages 0

/-- Witness for C8: a concrete two-page document (one email page, one SSN
page); the blocks of the result are page-sorted and bounded. -/
theorem C8_invariants_witness :
    (∀ b ∈ scanPagesFrom 0 [emailPage, ssnPage],
      1 ≤ b.page_number ∧ b.page_number ≤ 2 ∧ 0 ≤ b.confidence ∧ b.confidence ≤ 1)
    ∧ (scanPagesFrom 0 [emailPage, ssnPage]).Pairwise
        fun a c => a.page_number ≤ c.page_number :=
  ⟨C8_result_block_invariants.1 sampleHeader "f"
      (.ok { pages := [emailPage, ssnPage], writeResult := .ok [] })
      { file_id := "f", total_pages := 2,
        redaction_blocks := scanPagesFrom 0 [emailPage, ssnPage],
        summary := create_summary (scanPagesFrom 0 [emailPage, ssnPage]),
        redacted_bytes := [] } rfl,
   C8_result_block_invariants.2 sampleHeader "f"
      (.ok { pages := [emailPage, ssnPage], writeResult := .ok [] })
      { file_id := "f", total_pages := 2,
        redaction_blocks := scanPagesFrom 0 [emailPage, ssnPage],
        summary := create_summary (scanPagesFrom 0 [emailPage, ssnPage]),
        redacted_bytes := [] } rfl⟩

/-! ### C9: detector totality -/

/-- C9 counterexample.  The detector is not total: the separator class of the
credit-card pattern admits any whitespace, but the Luhn stripping removes only
dashes and spaces, so on a tab-separated card number the digit parse
raises the Python `ValueError` and `detect_content` propagates it. -/
theorem C9_detector_raises_counterexample :
    detect_content "4111\t1111\t1111\t1111" =
      .error (.valueError "invalid literal for int with base 10: \t") := rfl

theorem calc_ok_nonCC (r : RedactionReason) (t : String) (hr : r ≠ .credit_card) :
    calculate_confidence r t = .ok (min (base_confidence r) 1) := by
  unfold calculate_confidence
  rw [if_neg hr]

theorem calc_ok_CC_digits {t : String}
    (h : ∀ c ∈ (stripSep t).toList, c.isDigit = true) :
    ∃ q, calculate_confidence .credit_card t = .ok q := by
  have hd := digitList_all_digits (stripSep t).toList h
  unfold calculate_confidence
  rw [if_pos rfl]
  unfold is_valid_credit_card luhn_checksum
  rw [hd]
  exact ⟨_, rfl⟩

theorem detectMatches_ok : ∀ (ms : List String) (r : RedactionReason),
    (∀ m ∈ ms, ∃ q, calculate_confidence r m = .ok q) →
    ∃ l, detectMatches ms r = .ok l
  | [], _, _ => ⟨[], rfl⟩
  | m :: rest, r, h => by
    rcases h m (by simp) with ⟨q, hq⟩
    rcases detectMatches_ok rest r (fun m' hm' => h m' (by simp [hm'])) with ⟨l, hl⟩
    exact ⟨(m, r, q) :: l, by simp only [detectMatches, hq, hl]⟩

/-- C9 as amended.  The detector terminates on every input (it is a total
function), and it returns a match list without error on every input whose
credit-card pattern matches, stripped of dashes and spaces, consist only
of decimal digits; a match with another whitespace separator (such as the
tab of the counterexample) instead makes the Luhn digit parse raise. -/
theorem C9_detector_total_amended :
    ∀ text : String,
      (∀ m ∈ findStrings ccRe text, ∀ c ∈ (stripSep m).toList, c.isDigit = true) →
      ∃ items, detect_content text = .ok items := by
  intro text h
  have hcc : ∃ l, detectMatches (findStrings ccRe text) .credit_card = .ok l :=
    detectMatches_ok _ _ fun m hm => calc_ok_CC_digits (h m hm)
  have hother : ∀ (r : RedactionReason) (re : Rgx), r ≠ .credit_card →
      ∃ l, detectMatches (findStrings re text) r = .ok l :=
    fun r re hr => detectMatches_ok _ _ fun m _ => ⟨_, calc_ok_nonCC r m hr⟩
  obtain ⟨l1, h1⟩ := hother .email emailRe (by decide)
  obtain ⟨l2, h2⟩ := hother .ssn ssnRe (by decide)
  obtain ⟨l3, h3⟩ := hcc
  obtain ⟨l4, h4⟩ := hother .phone_number phoneRe (by decide)
  obtain ⟨l5, h5⟩ := hother .date_of_birth dobRe (by decide)
  obtain ⟨l6, h6⟩ := hother .account_number accountRe (by decide)
  refine ⟨l1 ++ (l2 ++ (l3 ++ (l4 ++ (l5 ++ (l6 ++ []))))), ?_⟩
  unfold detect_content patterns
  simp only [detectLoop, h1, h2, h3, h4, h5, h6]

/-- Witness for the amended claim of C9: a dash-separated card number text — its
only credit-card match strips to pure digits, so detection succeeds. -/
theorem C9_total_witness :
    ∃ items, detect_content "Card: 4111-1111-1111-1111" = .ok items :=
  C9_detector_total_amended "Card: 4111-1111-1111-1111" (by decide)

/-! ### Matcher sanity vectors (cross-checked against the behavior of the
test strings in `tests/test_pdf_processor.py`) -/

theorem ccRe_vectors : findStrings ccRe "Card: 4111-1111-1111-1111 or 4111111111111111" =
    ["4111-1111-1111-1111", "4111111111111111"] := by decide

theorem ccRe_tab_vector : findStrings ccRe "4111\t1111\t1111\t1111" =
    ["4111\t1111\t1111\t1111"] := by decide

theorem emailRe_vectors :
    findStrings emailRe "Contact us at john.doe@example.com or support@company.org" =
      ["john.doe@example.com", "support@company.org"] := by decide

theorem ssnRe_vectors : findStrings ssnRe "SSN: 123-45-6789 or 123456789" =
    ["123-45-6789", "123456789"] := by decide

theorem dobRe_vectors : findStrings dobRe "DOB: 01/15/1990 or 12-31-1985" =
    ["01/15/1990", "12-31-1985"] := by decide

theorem accountRe_vectors : findStrings accountRe "Account: 12345678 or 9876543210" =
    ["12345678", "9876543210"] := by decide
